import Mathlib

/-!
Shallow embedding of the `matchable` library (files `matchable/match.py` and
`matchable/spec.py`) and proofs about its condition model, condition store,
matching algorithm and wrapper registry.

Machine-level conventions of the embedding:
* Python exceptions are modelled by the `PyErr` enumeration; fallible code
  returns `Except PyErr _`.  `lookupError` stands for the `LookupError` base
  class (covering `KeyError` and `IndexError`), since the source catches by
  that base class.
* Python objects, as far as the library inspects them, are a runtime type
  together with attribute and item lookup maps (`PyObj`).
* The class hierarchy of the host program is an abstract type `Ty` with a
  C3-linearisation function `mro`, bundled with the guarantees CPython gives
  for `type.mro` (the list starts with the type itself, has no duplicates,
  and the induced subtype relation is antisymmetric).
-/

/-- Python exception kinds relevant to the library.  `lookupError` models the
`LookupError` base class (`KeyError`/`IndexError`). -/
inductive PyErr where
  | attributeError
  | lookupError
  | typeError
  | valueError
deriving DecidableEq, Repr

/-- Whether a fallible boolean evaluation returned `True`. -/
def Exc.okTrue : Except PyErr Bool → Bool
  | .ok true => true
  | _ => false

/-- Whether a fallible evaluation returned without raising. -/
def Exc.isOkB {α : Type} : Except PyErr α → Bool
  | .ok _ => true
  | .error _ => false

/-- The two concrete `Comparison` subclasses of `match.py`:
`CompareAttr` (attribute access) and `CompareItem` (item access). -/
inductive CmpKind where
  | attr
  | item
deriving DecidableEq, Repr

/-- CPython guarantees about `type.mro`: the linearisation starts with the
type itself, contains no duplicates, and mutual membership implies equality
(the subclass relation is a partial order). -/
structure Hierarchy (Ty : Type) where
  mro : Ty → List Ty
  self_head : ∀ t : Ty, ∃ rest, mro t = t :: rest
  nodup : ∀ t : Ty, (mro t).Nodup
  asym : ∀ s t : Ty, s ∈ mro t → t ∈ mro s → s = t

/-- The `Condition` values of `match.py`: `Comparison` (in its two concrete
variants `CompareAttr`/`CompareItem`, distinguished by `CmpKind`) and
`IsInstance`.  `Ty` is the host type universe, `ι` the identifier type,
`ω` the comparison-operator type and `V` the value universe of reference
values and retrieved characteristics. -/
inductive Cond (Ty ι ω V : Type) where
  | comparison (kind : CmpKind) (tp : Ty) (identifier : ι) (op : ω) (ref : V)
  | isInstance (tp : Ty)
deriving DecidableEq, Repr

namespace Cond

variable {Ty ι ω V : Type}

/-- Bound type of a condition (`Condition.type` in the source). -/
def tpOf : Cond Ty ι ω V → Ty
  | .comparison _ tp _ _ _ => tp
  | .isInstance tp => tp

/-- `Comparison.__eq__` / `IsInstance.__eq__`: equality first requires the
exact Python class (`type(self) == type(other)`), then compares the
attributes (`type, identifier, op, ref` for comparisons, `type` for
is-instance conditions). -/
def condEq [DecidableEq Ty] [DecidableEq ι] [DecidableEq ω] [DecidableEq V] :
    Cond Ty ι ω V → Cond Ty ι ω V → Bool
  | .comparison k t i o r, .comparison k' t' i' o' r' =>
      k = k' && (t = t' && (i = i' && (o = o' && r = r')))
  | .isInstance t, .isInstance t' => t = t'
  | _, _ => false

/-- The class-specific `__lt__` methods, `none` modelling `NotImplemented`:
`Comparison.__lt__` returns `False` when both sides are `Comparison`
instances and `NotImplemented` otherwise; `IsInstance.__lt__` returns
`self.type in other.type.mro()` when the other side is of the exact same
class and `True` otherwise. -/
def dunderLT [DecidableEq Ty] (H : Hierarchy Ty) :
    Cond Ty ι ω V → Cond Ty ι ω V → Option Bool
  | .comparison _ _ _ _ _, .comparison _ _ _ _ _ => some false
  | .comparison _ _ _ _ _, .isInstance _ => none
  | .isInstance s, .isInstance t => some (decide (s ∈ H.mro t))
  | .isInstance _, .comparison _ _ _ _ _ => some true

/-- The `__gt__` method generated by `functools.total_ordering` from
`__lt__` and `__eq__`: `op_result = self.__lt__(other); if op_result is
NotImplemented: return op_result; return not op_result and self != other`. -/
def dunderGT [DecidableEq Ty] [DecidableEq ι] [DecidableEq ω] [DecidableEq V]
    (H : Hierarchy Ty) (a b : Cond Ty ι ω V) : Option Bool :=
  match dunderLT H a b with
  | none => none
  | some r => some (!r && !condEq a b)

/-- Python's evaluation of `a < b`: try `a.__lt__(b)`; on `NotImplemented`
try the reflected `b.__gt__(a)`; if that also fails the interpreter raises
`TypeError`, modelled by `none`.  (The condition classes are unrelated
siblings, so the reflected method is never tried first.) -/
def pyLT? [DecidableEq Ty] [DecidableEq ι] [DecidableEq ω] [DecidableEq V]
    (H : Hierarchy Ty) (a b : Cond Ty ι ω V) : Option Bool :=
  match dunderLT H a b with
  | some r => some r
  | none => dunderGT H b a

/-- Boolean form of `a < b`, used as the comparator of `list.sort`; by
`pyLT?_isSome` the default value is never taken on conditions. -/
def pyLT [DecidableEq Ty] [DecidableEq ι] [DecidableEq ω] [DecidableEq V]
    (H : Hierarchy Ty) (a b : Cond Ty ι ω V) : Bool :=
  (pyLT? H a b).getD false

end Cond

/-- A Python object, as far as the library inspects it: its runtime type, and
its attribute / item lookup behaviour.  `getattr id = .error e` models
`getattr(obj, id)` raising `e` (an `AttributeError` for a missing attribute);
`getitem id = .error e` models `obj[id]` raising `e` (a `LookupError` for a
missing key or index, a `TypeError` when the object does not support
subscripting at all). -/
structure PyObj (Ty ι V : Type) where
  type : Ty
  getattr : ι → Except PyErr V
  getitem : ι → Except PyErr V

namespace Cond

variable {Ty ι ω V : Type}

/-- `CompareAttr.retrieve` / `CompareItem.retrieve`: attribute access
`getattr(obj, self.identifier)` resp. item access `obj[self.identifier]`. -/
def retrieve (kind : CmpKind) (obj : PyObj Ty ι V) (id : ι) : Except PyErr V :=
  match kind with
  | .attr => obj.getattr id
  | .item => obj.getitem id

/-- The exception classes caught by `Comparison.match`:
`except (AttributeError, LookupError)`. -/
def caughtByMatch : PyErr → Bool
  | .attributeError => true
  | .lookupError => true
  | _ => false

/-- `Condition.match`: an `IsInstance` condition checks
`isinstance(obj, self.type)` (membership of the bound type in the MRO of the
object's runtime type); a `Comparison` evaluates
`self.op(self.retrieve(obj), self.ref)` and converts an `AttributeError` or
`LookupError` raised underneath into `False`, propagating any other
exception.  `ap` interprets the stored operator (which, like any Python
callable, may itself raise). -/
def condMatch [DecidableEq Ty] (H : Hierarchy Ty)
    (ap : ω → V → V → Except PyErr Bool) :
    Cond Ty ι ω V → PyObj Ty ι V → Except PyErr Bool
  | .comparison kind _ id op ref, obj =>
      match (retrieve kind obj id).bind (fun v => ap op v ref) with
      | .ok b => .ok b
      | .error e => if caughtByMatch e then .ok false else .error e
  | .isInstance tp, obj => .ok (decide (tp ∈ H.mro obj.type))

end Cond

/-!  ## The sorting routine

`Options.match` sorts lists of `(condition, value)` pairs with
`list.sort(key=operator.itemgetter(0))` / `sorted(..., key=...)`.  CPython's
sort is stable and compares keys with `<` only; on the short lists arising
here it performs binary insertion, which inserts each element (processed left
to right) immediately before the first already-placed element its key is
`<` than.  `pyInsert`/`pySortKey0` model exactly that. -/

/-- Stable insertion of `x` into the sorted prefix: `x` is placed before the
first element `y` with `lt x y`, i.e. as far right as possible. -/
def pyInsert {α : Type} (lt : α → α → Bool) (x : α) : List α → List α
  | [] => [x]
  | y :: ys => if lt x y then x :: y :: ys else y :: pyInsert lt x ys

/-- Stable sort by repeated insertion, processing elements left to right. -/
def pySort {α : Type} (lt : α → α → Bool) (l : List α) : List α :=
  l.foldl (fun acc x => pyInsert lt x acc) []

/-!  ## The condition store (`Options` of `spec.py`)

`Options._types` is `defaultdict(dict)`: an insertion-ordered dictionary from
bound type to an insertion-ordered dictionary from condition to value.  It is
modelled as an association list of buckets, each bucket an association list
of `(condition, value)` pairs.  Reading `self._types[tp]` through the
defaultdict inserts an empty bucket when `tp` is absent, so the read is
modelled state-passing (`ddGet`). -/

/-- State of an `Options` store: the contents of `self._types`, buckets in
key-insertion order. -/
structure OptionsState (Ty ι ω V W : Type) where
  types : List (Ty × List (Cond Ty ι ω V × W))

namespace OptionsState

variable {Ty ι ω V W : Type} [DecidableEq Ty]

/-- Pure lookup of the bucket of `tp`, empty when absent. -/
def lookupBucket (s : OptionsState Ty ι ω V W) (tp : Ty) :
    List (Cond Ty ι ω V × W) :=
  match s.types.find? (fun p => p.1 = tp) with
  | some p => p.2
  | none => []

/-- `self._types[tp]` on the `defaultdict`: returns the bucket and the
possibly-extended state (a missing key is inserted with an empty dict). -/
def ddGet (s : OptionsState Ty ι ω V W) (tp : Ty) :
    List (Cond Ty ι ω V × W) × OptionsState Ty ι ω V W :=
  match s.types.find? (fun p => p.1 = tp) with
  | some p => (p.2, s)
  | none => ([], ⟨s.types ++ [(tp, [])]⟩)

/-- `Options.__iter__`: `chain.from_iterable(self._types.values())`, i.e. the
conditions of all buckets in order. -/
def iterConds (s : OptionsState Ty ι ω V W) : List (Cond Ty ι ω V) :=
  (s.types.map (fun p => p.2.map Prod.fst)).flatten

/-- `Options.__len__`: `sum(map(len, self._types.values()))`. -/
def lenOptions (s : OptionsState Ty ι ω V W) : Nat :=
  (s.types.map (fun p => p.2.length)).sum

/-- The `(condition, value)` entries across all buckets, in order. -/
def entries (s : OptionsState Ty ι ω V W) : List (Cond Ty ι ω V × W) :=
  (s.types.map Prod.snd).flatten

end OptionsState

/-- Result of `Options.match`: a `Python` exception or the `NoMatchError`
raised when no condition matched; the latter carries the unmatched object
(the source interpolates `obj!r` into the error message). -/
inductive MatchErr (Ty ι V : Type) where
  | pyErr (e : PyErr)
  | noMatch (obj : PyObj Ty ι V)

namespace OptionsState

variable {Ty ι ω V W : Type} [DecidableEq Ty] [DecidableEq ι]
variable [DecidableEq ω] [DecidableEq V]

/-- The list comprehension
`[(cond, val) for cond, val in self._types[tp].items() if cond.match(obj)]`:
conditions are evaluated left to right and the first exception raised by a
`cond.match(obj)` propagates. -/
def filterMatch (H : Hierarchy Ty) (ap : ω → V → V → Except PyErr Bool)
    (obj : PyObj Ty ι V) :
    List (Cond Ty ι ω V × W) → Except PyErr (List (Cond Ty ι ω V × W))
  | [] => .ok []
  | cw :: rest => do
      let b ← Cond.condMatch H ap cw.1 obj
      let tail ← filterMatch H ap obj rest
      pure (if b then cw :: tail else tail)

/-- Comparator on `(condition, value)` pairs induced by
`key=operator.itemgetter(0)`: only the conditions are compared. -/
def pairLT (H : Hierarchy Ty) (a b : Cond Ty ι ω V × W) : Bool :=
  Cond.pyLT H a.1 b.1

/-- The `for tp in reversed(type.mro(type(obj)))` loop of `Options.match`:
walks the given type list, reads each bucket through the defaultdict,
filters by `cond.match(obj)`, sorts per level when `typewise`, and
concatenates.  An exception stops the walk immediately. -/
def collect (H : Hierarchy Ty) (ap : ω → V → V → Except PyErr Bool)
    (obj : PyObj Ty ι V) (typewise : Bool) :
    List Ty → OptionsState Ty ι ω V W →
    Except PyErr (List (Cond Ty ι ω V × W)) × OptionsState Ty ι ω V W
  | [], s => (.ok [], s)
  | tp :: rest, s =>
      let bs := ddGet s tp
      match filterMatch H ap obj bs.1 with
      | .error e => (.error e, bs.2)
      | .ok filtered =>
          let tpOptions := if typewise then pySort (pairLT H) filtered
                           else filtered
          let rs := collect H ap obj typewise rest bs.2
          match rs.1 with
          | .error e => (.error e, rs.2)
          | .ok more => (.ok (tpOptions ++ more), rs.2)

/-- `functools.reduce(operator.or_, values)` with the first element as seed;
a combination step may raise. -/
def reduceOr (orOp : W → W → Except PyErr W) : W → List W → Except PyErr W
  | acc, [] => .ok acc
  | acc, w :: rest => (orOp acc w).bind (fun acc' => reduceOr orOp acc' rest)

/-- The tail of `Options.match` after the walk: `if not options: raise
NoMatchError(...)` followed by `reduce(operator.or_, values)`, with an
exception from a combination step propagating. -/
def foldOptions (orOp : W → W → Except PyErr W) (obj : PyObj Ty ι V) :
    List (Cond Ty ι ω V × W) → Except (MatchErr Ty ι V) W
  | [] => .error (.noMatch obj)
  | cw :: rest =>
      match reduceOr orOp cw.2 (rest.map Prod.snd) with
      | .ok v => .ok v
      | .error e => .error (.pyErr e)

/-- `Options.match(obj, typewise=...)`, with the defaultdict state threaded
through: walks `reversed(type.mro(type(obj)))`, collects the satisfied
conditions, sorts globally unless `typewise`, raises `NoMatchError` on an
empty sequence and otherwise folds the values with `|`. -/
def matchST (H : Hierarchy Ty) (ap : ω → V → V → Except PyErr Bool)
    (orOp : W → W → Except PyErr W) (s : OptionsState Ty ι ω V W)
    (obj : PyObj Ty ι V) (typewise : Bool) :
    Except (MatchErr Ty ι V) W × OptionsState Ty ι ω V W :=
  let cs := collect H ap obj typewise (H.mro obj.type).reverse s
  match cs.1 with
  | .error e => (.error (.pyErr e), cs.2)
  | .ok collected =>
      (foldOptions orOp obj
        (if typewise then collected else pySort (pairLT H) collected),
       cs.2)

/-- The value returned (or exception raised) by `Options.match`. -/
def matchOptions (H : Hierarchy Ty) (ap : ω → V → V → Except PyErr Bool)
    (orOp : W → W → Except PyErr W) (s : OptionsState Ty ι ω V W)
    (obj : PyObj Ty ι V) (typewise : Bool) : Except (MatchErr Ty ι V) W :=
  (matchST H ap orOp s obj typewise).1

/-- Decides whether some stored condition under a type of the object's MRO
is satisfied (`cond.match(obj)` returns `True`). -/
def anySatisfied (H : Hierarchy Ty) (ap : ω → V → V → Except PyErr Bool)
    (s : OptionsState Ty ι ω V W) (obj : PyObj Ty ι V) : Bool :=
  (H.mro obj.type).any (fun tp =>
    (s.lookupBucket tp).any (fun cw =>
      Exc.okTrue (Cond.condMatch H ap cw.1 obj)))

/-- Decides whether every consulted condition evaluates without raising. -/
def allClean (H : Hierarchy Ty) (ap : ω → V → V → Except PyErr Bool)
    (s : OptionsState Ty ι ω V W) (obj : PyObj Ty ι V) : Bool :=
  (H.mro obj.type).all (fun tp =>
    (s.lookupBucket tp).all (fun cw =>
      Exc.isOkB (Cond.condMatch H ap cw.1 obj)))

/-- The satisfied `(condition, value)` pairs of one MRO level, sorted
per level in `typewise` mode. -/
def levelOptions (H : Hierarchy Ty) (ap : ω → V → V → Except PyErr Bool)
    (s : OptionsState Ty ι ω V W) (obj : PyObj Ty ι V) (typewise : Bool)
    (tp : Ty) : List (Cond Ty ι ω V × W) :=
  if typewise then
    pySort (pairLT H) ((s.lookupBucket tp).filter
      (fun cw => Exc.okTrue (Cond.condMatch H ap cw.1 obj)))
  else
    (s.lookupBucket tp).filter
      (fun cw => Exc.okTrue (Cond.condMatch H ap cw.1 obj))

/-- The sequence of satisfied `(condition, value)` pairs that the MRO walk
of `Options.match` gathers (before the global sort of the default mode). -/
def satisfiedOptions (H : Hierarchy Ty) (ap : ω → V → V → Except PyErr Bool)
    (s : OptionsState Ty ι ω V W) (obj : PyObj Ty ι V) (typewise : Bool) :
    List (Cond Ty ι ω V × W) :=
  ((H.mro obj.type).reverse).flatMap (levelOptions H ap s obj typewise)

end OptionsState

/-!  ## Wrapped values and the `|` combination protocol (`spec.py`)

The values stored by `Spec.add_pattern` are wrapper instances:
`LastSeenWins` or `CopyUpdate` (or user-defined, out of scope here).  The
payload universe `PyVal` models the Python values exercised by the library:
numbers, strings, dictionaries with string keys and primitive values, and
sets of primitives — flat containers suffice for everything the source and
its tests do with them. -/

/-- Primitive (hashable) Python values appearing inside containers. -/
inductive PyPrim where
  | pInt (n : Int)
  | pStr (s : String)
deriving DecidableEq, Repr

/-- Python values wrapped by the combination wrappers. -/
inductive PyVal where
  | pyInt (n : Int)
  | pyStr (s : String)
  | pyDict (d : List (String × PyPrim))
  | pySet (xs : List PyPrim)
deriving DecidableEq, Repr

/-- A wrapper instance (`Wrapper` subclass of `spec.py`) around a payload. -/
inductive Wrapped (α : Type) where
  | lastSeenWins (obj : α)
  | copyUpdate (obj : α)
deriving DecidableEq, Repr

/-- `Spec.unwrap` restricted to wrapper instances: returns `value.obj`. -/
def pyUnwrap {α : Type} : Wrapped α → α
  | .lastSeenWins v => v
  | .copyUpdate v => v

/-- `d[k] = v` on an insertion-ordered dict: an existing key keeps its
position and takes the new value, a new key is appended. -/
def dictSetKey (d : List (String × PyPrim)) (k : String) (v : PyPrim) :
    List (String × PyPrim) :=
  if d.any (fun p => p.1 = k) then
    d.map (fun p => if p.1 = k then (k, v) else p)
  else d ++ [(k, v)]

/-- `d.update(e)` for a mapping argument: entries of `e` applied in order. -/
def dictUpdate (d e : List (String × PyPrim)) : List (String × PyPrim) :=
  e.foldl (fun acc kv => dictSetKey acc kv.1 kv.2) d

/-- `s.update(it)` for sets: elements added in order, duplicates skipped. -/
def setUpdate (xs ys : List PyPrim) : List PyPrim :=
  ys.foldl (fun acc y => if y ∈ acc then acc else acc ++ [y]) xs

/-- `d.update(it)` for a non-mapping iterable: each element must be a
key/value pair.  In the modelled value universe an element that is a
2-character string unpacks into two 1-character strings; any other string
fails with `ValueError` (wrong unpacking length) and a number fails with
`TypeError` (not iterable).  Elements are consumed left to right and the
first exception propagates (the partially updated copy is discarded by the
caller). -/
def dictUpdateIter (d : List (String × PyPrim)) :
    List PyPrim → Except PyErr (List (String × PyPrim))
  | [] => .ok d
  | .pInt _ :: _ => .error .typeError
  | .pStr s :: rest =>
      if s.length = 2 then
        dictUpdateIter
          (dictSetKey d (String.mk [s.get 0])
            (.pStr (String.mk [s.get ⟨1⟩]))) rest
      else .error .valueError

/-- `new.update(other)` as performed inside `CopyUpdate.__or__`, for every
left-hand side that owns an `update` method (dicts and sets); the update of
a dict from a string iterates its characters, which never unpack as pairs
unless the string is empty. -/
def pyUpdate : PyVal → PyVal → Except PyErr PyVal
  | .pyDict d, .pyDict e => .ok (.pyDict (dictUpdate d e))
  | .pyDict d, .pySet xs => (dictUpdateIter d xs).map .pyDict
  | .pyDict d, .pyStr s =>
      if s.isEmpty then .ok (.pyDict d) else .error .valueError
  | .pyDict _, .pyInt _ => .error .typeError
  | .pySet xs, .pySet ys => .ok (.pySet (setUpdate xs ys))
  | .pySet xs, .pyDict e =>
      .ok (.pySet (setUpdate xs (e.map (fun kv => .pStr kv.1))))
  | .pySet xs, .pyStr s =>
      .ok (.pySet (setUpdate xs (s.toList.map (fun c => .pStr (String.mk [c])))))
  | .pySet _, .pyInt _ => .error .typeError
  | .pyInt _, _ => .error .attributeError
  | .pyStr _, _ => .error .attributeError

/-- Result of a single `__or__` / `__ror__` call: a value, a raised
exception, or the `NotImplemented` sentinel. -/
inductive OrRes (W : Type) where
  | val (w : W)
  | exc (e : PyErr)
  | notImpl
deriving DecidableEq, Repr

/-- `CopyUpdate.__or__`: unwraps the right-hand side, copies the own payload
(`AttributeError` when the payload has no `copy` method — raised outside the
`try`), updates the copy with the other payload, catches
`ValueError`/`TypeError` as `NotImplemented`, and rewraps the result. -/
def copyUpdateOr (x : PyVal) (other : Wrapped PyVal) : OrRes (Wrapped PyVal) :=
  let o := pyUnwrap other
  match x with
  | .pyInt _ => .exc .attributeError
  | .pyStr _ => .exc .attributeError
  | _ =>
      match pyUpdate x o with
      | .ok newV => .val (.copyUpdate newV)
      | .error e =>
          if e = .valueError ∨ e = .typeError then .notImpl else .exc e

/-- Python's evaluation of `a | b` on wrapper instances:
`LastSeenWins.__or__` returns the right-hand side; `CopyUpdate.__or__` as
above; on `NotImplemented` the reflected `__ror__` of the right-hand side is
tried if its class differs (`LastSeenWins.__ror__` returns itself,
`CopyUpdate` defines none), and `TypeError` is raised when no method
applies. -/
def wrappedOr (a b : Wrapped PyVal) : Except PyErr (Wrapped PyVal) :=
  match a with
  | .lastSeenWins _ => .ok b
  | .copyUpdate x =>
      match copyUpdateOr x b with
      | .val w => .ok w
      | .exc e => .error e
      | .notImpl =>
          match b with
          | .lastSeenWins _ => .ok b
          | .copyUpdate _ => .error .typeError

/-!  ## Operator interpretation and concrete universes for witnesses -/

/-- A closed universe of comparison operators with integer semantics,
standing for the `operator` module functions stored in conditions. -/
inductive COp where
  | opEq
  | opGt
  | opLt
deriving DecidableEq, Repr

/-- Interpretation of `COp` on integer values (these operators never raise
on integers). -/
def capply : COp → Int → Int → Except PyErr Bool
  | .opEq, a, b => .ok (decide (a = b))
  | .opGt, a, b => .ok (decide (a > b))
  | .opLt, a, b => .ok (decide (a < b))

/-- A concrete single-inheritance hierarchy mirroring the test fixtures:
`object`, `A`, `B(A)`, `C(B)`. -/
inductive CTy where
  | tObj
  | tA
  | tB
  | tC
deriving DecidableEq, Repr, Fintype

/-- `type.mro` of the concrete hierarchy. -/
def cmro : CTy → List CTy
  | .tObj => [.tObj]
  | .tA => [.tA, .tObj]
  | .tB => [.tB, .tA, .tObj]
  | .tC => [.tC, .tB, .tA, .tObj]

/-- The concrete hierarchy with its CPython guarantees. -/
def CH : Hierarchy CTy where
  mro := cmro
  self_head := by intro t; cases t <;> exact ⟨_, rfl⟩
  nodup := by decide
  asym := by decide

/-!  ## The wrapper registry (`WRAPPER_TYPES` of `spec.py`)

`WRAPPER_TYPES` is itself a `Spec` whose conditions are bound to the value
types `object`, `dict`, `set` and `Wrapper`, and whose stored values are
wrapper *constructors*, each wrapped in `LastSeenWins`.  `Spec.add_pattern`
resolves the constructor for a value with `WRAPPER_TYPES.match(value)` and
applies it.  The universe below covers the classes involved. -/

/-- Types of the values handled by the registry, with the class hierarchy
`LastSeenWins < Wrapper < object`, `CopyUpdate < Wrapper < object`,
`dict/set/int/str < object`. -/
inductive WTy where
  | objT
  | dictT
  | setT
  | intT
  | strT
  | wrapperT
  | lswT
  | cuT
deriving DecidableEq, Repr, Fintype

/-- `type.mro` on the registry universe. -/
def wmro : WTy → List WTy
  | .objT => [.objT]
  | .dictT => [.dictT, .objT]
  | .setT => [.setT, .objT]
  | .intT => [.intT, .objT]
  | .strT => [.strT, .objT]
  | .wrapperT => [.wrapperT, .objT]
  | .lswT => [.lswT, .wrapperT, .objT]
  | .cuT => [.cuT, .wrapperT, .objT]

/-- The registry universe hierarchy. -/
def WH : Hierarchy WTy where
  mro := wmro
  self_head := by intro t; cases t <;> exact ⟨_, rfl⟩
  nodup := by decide
  asym := by decide

/-- The values a pattern's associated value may be at `add_pattern` time:
plain values or already-constructed wrapper instances. -/
inductive MVal where
  | mInt (n : Int)
  | mStr (s : String)
  | mDict (d : List (String × PyPrim))
  | mSet (xs : List PyPrim)
  | mLsw (v : MVal)
  | mCu (v : MVal)
deriving DecidableEq, Repr

/-- Runtime type of an `MVal`. -/
def MVal.typeOf : MVal → WTy
  | .mInt _ => .intT
  | .mStr _ => .strT
  | .mDict _ => .dictT
  | .mSet _ => .setT
  | .mLsw _ => .lswT
  | .mCu _ => .cuT

/-- `isinstance(value, Wrapper)`. -/
def MVal.isWrapper : MVal → Bool
  | .mLsw _ => true
  | .mCu _ => true
  | _ => false

/-- The wrapper constructors stored in `WRAPPER_TYPES`: the classes
`LastSeenWins` and `CopyUpdate`, and the identity `lambda x: x` registered
under `Wrapper` ("Do not wrap again"). -/
inductive Ctor where
  | mkLastSeenWins
  | mkCopyUpdate
  | mkIdentity
deriving DecidableEq, Repr

/-- Calling a constructor on a value (`w_type(value)` in `add_pattern`). -/
def applyCtor : Ctor → MVal → MVal
  | .mkLastSeenWins, v => .mLsw v
  | .mkCopyUpdate, v => .mCu v
  | .mkIdentity, v => v

/-- `LastSeenWins.__or__` on the registry's stored values (every stored
value of `WRAPPER_TYPES` is a `LastSeenWins`; a `CopyUpdate` around a class
object would raise `AttributeError` from `.copy()`). -/
def ctorOr (a b : Wrapped Ctor) : Except PyErr (Wrapped Ctor) :=
  match a with
  | .lastSeenWins _ => .ok b
  | .copyUpdate _ => .error .attributeError

/-- An `MVal` seen as a Python object.  The registry's conditions are all
`IsInstance`, so attribute and item access are never consulted; plain data
values expose no attributes of interest and no subscripting of integers. -/
def MVal.asObj (v : MVal) : PyObj WTy String Int :=
  { type := v.typeOf
    getattr := fun _ => .error .attributeError
    getitem := fun _ => .error .typeError }

/-- The initial contents of `WRAPPER_TYPES`:
`IsInstance(object) ↦ LastSeenWins(LastSeenWins)`,
`IsInstance(dict) ↦ LastSeenWins(CopyUpdate)`,
`IsInstance(set) ↦ LastSeenWins(CopyUpdate)`,
`IsInstance(Wrapper) ↦ LastSeenWins(lambda x: x)`. -/
def WRAPPER_TYPES : OptionsState WTy String COp Int (Wrapped Ctor) :=
  ⟨[(.objT, [(.isInstance .objT, .lastSeenWins .mkLastSeenWins)]),
    (.dictT, [(.isInstance .dictT, .lastSeenWins .mkCopyUpdate)]),
    (.setT, [(.isInstance .setT, .lastSeenWins .mkCopyUpdate)]),
    (.wrapperT, [(.isInstance .wrapperT, .lastSeenWins .mkIdentity)])]⟩

/-- Operator interpretation for the registry universe (never consulted by
its `IsInstance` conditions). -/
def wapply : COp → Int → Int → Except PyErr Bool :=
  fun _ _ _ => .error .typeError

/-- `WRAPPER_TYPES.match(value)`: resolve the wrapper constructor for a
value — `Spec.match` is `unwrap(Options.match(value))`. -/
def resolveWrapper (v : MVal) : Except (MatchErr WTy String Int) Ctor :=
  (OptionsState.matchOptions WH wapply ctorOr WRAPPER_TYPES v.asObj false).map
    pyUnwrap

/-- The wrapping step of `Spec.add_pattern`:
`w_type = WRAPPER_TYPES.match(value); ... = w_type(value)`. -/
def addPatternWrap (v : MVal) : Except (MatchErr WTy String Int) MVal :=
  (resolveWrapper v).map (fun c => applyCtor c v)


/-!  ## Concrete stores and objects used in witnesses and counterexamples -/

/-- An object of type `A` that supports no attribute access (every
`getattr` raises `AttributeError`) and no item access at all (subscripting
raises `TypeError`, like any non-subscriptable Python object such as an
`int`). -/
def nonSubscriptable : PyObj CTy String Int where
  type := .tA
  getattr := fun _ => .error .attributeError
  getitem := fun _ => .error .typeError

/-- A store holding a single item-based condition bound to type `A`. -/
def itemCondStore : OptionsState CTy String COp Int (Wrapped PyVal) :=
  ⟨[(.tA, [(.comparison .item .tA "x" .opEq 0,
            .lastSeenWins (.pyInt 1))])]⟩

/-- The two-condition store of the `typewise` scenario: a type-based
condition bound to the subtype `S` with value `v1`, and an attribute-based
condition bound to the supertype `P` with value `v2`, both values wrapped
`LastSeenWins`. -/
def c4store {Ty ι ω V : Type} (S P : Ty) (idc : ι) (op : ω) (ref : V)
    (v1 v2 : PyVal) : OptionsState Ty ι ω V (Wrapped PyVal) :=
  ⟨[(S, [(.isInstance S, .lastSeenWins v1)]),
    (P, [(.comparison .attr P idc op ref, .lastSeenWins v2)])]⟩

/-- A store with a dict-valued pattern on `A` and a set-valued pattern on
`B(A)`, both wrapped `CopyUpdate` (as the default registry wraps dicts and
sets). -/
def c7store (d : List (String × PyPrim)) (n : Int) (xs : List PyPrim) :
    OptionsState CTy String COp Int (Wrapped PyVal) :=
  ⟨[(.tA, [(.isInstance .tA, .copyUpdate (.pyDict d))]),
    (.tB, [(.isInstance .tB, .copyUpdate (.pySet (.pInt n :: xs)))])]⟩

/-- An object of type `B` with no interesting attributes or items. -/
def c7obj : PyObj CTy String Int where
  type := .tB
  getattr := fun _ => .error .attributeError
  getitem := fun _ => .error .typeError


/-!  ## Supporting lemmas -/

theorem Hierarchy.self_mem {Ty : Type} (H : Hierarchy Ty) (t : Ty) :
    t ∈ H.mro t := by
  obtain ⟨rest, h⟩ := H.self_head t
  simp [h]

/-- On `Cond` values, `a < b` never raises `TypeError`. -/
theorem Cond.pyLT?_isSome {Ty ι ω V : Type} [DecidableEq Ty] [DecidableEq ι]
    [DecidableEq ω] [DecidableEq V] (H : Hierarchy Ty)
    (a b : Cond Ty ι ω V) : (Cond.pyLT? H a b).isSome := by
  cases a <;> cases b <;> simp [Cond.pyLT?, Cond.dunderLT, Cond.dunderGT]

theorem pyInsert_length {α : Type} (lt : α → α → Bool) (x : α) (l : List α) :
    (pyInsert lt x l).length = l.length + 1 := by
  induction l with
  | nil => rfl
  | cons y ys ih =>
      by_cases h : lt x y = true <;> simp [pyInsert, h, ih]

theorem pySort_length {α : Type} (lt : α → α → Bool) (l : List α) :
    (pySort lt l).length = l.length := by
  suffices h : ∀ acc : List α,
      (l.foldl (fun acc x => pyInsert lt x acc) acc).length =
        acc.length + l.length by
    simpa using h []
  induction l with
  | nil => intro acc; simp
  | cons y ys ih =>
      intro acc
      simp [List.foldl_cons, ih, pyInsert_length]
      omega

theorem pySort_eq_nil_iff {α : Type} (lt : α → α → Bool) (l : List α) :
    pySort lt l = [] ↔ l = [] := by
  constructor
  · intro h
    have := pySort_length lt l
    rw [h] at this
    simpa using (List.length_eq_zero.mp this.symm)
  · intro h; simp [h, pySort]

namespace OptionsState

variable {Ty ι ω V W : Type} [DecidableEq Ty] [DecidableEq ι]
variable [DecidableEq ω] [DecidableEq V]

theorem ddGet_fst (s : OptionsState Ty ι ω V W) (t : Ty) :
    (ddGet s t).1 = s.lookupBucket t := by
  unfold ddGet lookupBucket
  cases h : s.types.find? (fun p => p.1 = t) <;> simp [h]

/-- Reading a bucket through the `defaultdict` never changes any bucket's
(pure) contents: the inserted bucket is empty, which is also the default. -/
theorem lookupBucket_ddGet (s : OptionsState Ty ι ω V W) (t tp : Ty) :
    ((ddGet s t).2).lookupBucket tp = s.lookupBucket tp := by
  unfold ddGet
  cases h : s.types.find? (fun p => p.1 = t) with
  | some p => simp
  | none =>
      simp only [lookupBucket, List.find?_append]
      cases h2 : s.types.find? (fun p => p.1 = tp) with
      | some q => simp [Option.or]
      | none =>
          simp only [Option.or]
          cases h3 : List.find? (fun p => p.1 = tp) [(t, [])] with
          | none => simp
          | some q =>
              have hq : q = (t, []) := by
                have := List.mem_of_find?_eq_some h3
                simpa using this
              simp [hq]

theorem okTrue_ok (b : Bool) : Exc.okTrue (.ok b) = b := by
  cases b <;> rfl

/-- One level's satisfied options are unaffected by the empty buckets the
`defaultdict` inserts. -/
theorem levelOptions_ddGet (H : Hierarchy Ty)
    (ap : ω → V → V → Except PyErr Bool) (s : OptionsState Ty ι ω V W)
    (obj : PyObj Ty ι V) (tw : Bool) (t tp : Ty) :
    levelOptions H ap ((ddGet s t).2) obj tw tp =
      levelOptions H ap s obj tw tp := by
  unfold levelOptions
  rw [lookupBucket_ddGet]

theorem filterMatch_clean (H : Hierarchy Ty)
    (ap : ω → V → V → Except PyErr Bool) (obj : PyObj Ty ι V)
    (l : List (Cond Ty ι ω V × W))
    (h : ∀ cw ∈ l, Exc.isOkB (Cond.condMatch H ap cw.1 obj) = true) :
    filterMatch H ap obj l =
      .ok (l.filter (fun cw => Exc.okTrue (Cond.condMatch H ap cw.1 obj))) := by
  induction l with
  | nil => rfl
  | cons cw rest ih =>
      have hcw := h cw (List.mem_cons_self cw rest)
      obtain ⟨b, hb⟩ : ∃ b, Cond.condMatch H ap cw.1 obj = .ok b := by
        cases hm : Cond.condMatch H ap cw.1 obj with
        | ok b => exact ⟨b, rfl⟩
        | error e => rw [hm] at hcw; simp [Exc.isOkB] at hcw
      have htail := ih (fun cw' hcw' => h cw' (List.mem_cons_of_mem cw hcw'))
      simp only [filterMatch, hb, htail, List.filter_cons, okTrue_ok]
      cases b <;> rfl

theorem collect_clean (H : Hierarchy Ty)
    (ap : ω → V → V → Except PyErr Bool) (obj : PyObj Ty ι V)
    (tw : Bool) (tps : List Ty) (s : OptionsState Ty ι ω V W)
    (h : ∀ tp ∈ tps, ∀ cw ∈ s.lookupBucket tp,
      Exc.isOkB (Cond.condMatch H ap cw.1 obj) = true) :
    (collect H ap obj tw tps s).1 =
      .ok (tps.flatMap (levelOptions H ap s obj tw)) := by
  induction tps generalizing s with
  | nil => rfl
  | cons tp rest ih =>
      have hf : filterMatch H ap obj (ddGet s tp).1 =
          .ok ((s.lookupBucket tp).filter
            (fun cw => Exc.okTrue (Cond.condMatch H ap cw.1 obj))) := by
        rw [ddGet_fst]
        exact filterMatch_clean H ap obj _ (h tp (List.mem_cons_self tp rest))
      have hrest : ∀ tp' ∈ rest, ∀ cw ∈ ((ddGet s tp).2).lookupBucket tp',
          Exc.isOkB (Cond.condMatch H ap cw.1 obj) = true := by
        intro tp' htp' cw hcw
        rw [lookupBucket_ddGet] at hcw
        exact h tp' (List.mem_cons_of_mem tp htp') cw hcw
      have ihres := ih ((ddGet s tp).2) hrest
      have hfun : levelOptions H ap ((ddGet s tp).2) obj tw =
          levelOptions H ap s obj tw :=
        funext (fun tp' => levelOptions_ddGet H ap s obj tw tp tp')
      simp only [collect, hf, ihres, hfun, List.flatMap_cons, levelOptions]

/-- `self._types[tp]` on the `defaultdict` at most appends one empty
bucket. -/
theorem ddGet_types (s : OptionsState Ty ι ω V W) (t : Ty) :
    ∃ extra, ((ddGet s t).2).types = s.types ++ extra ∧
      ∀ p ∈ extra, p.2 = [] := by
  unfold ddGet
  cases h : s.types.find? (fun p => p.1 = t) with
  | some p => exact ⟨[], by simp⟩
  | none =>
      refine ⟨[(t, [])], rfl, ?_⟩
      intro p hp
      simp at hp
      simp [hp]

/-- The MRO walk of `Options.match` only ever appends empty buckets to the
store. -/
theorem collect_types (H : Hierarchy Ty)
    (ap : ω → V → V → Except PyErr Bool) (obj : PyObj Ty ι V) (tw : Bool)
    (tps : List Ty) (s : OptionsState Ty ι ω V W) :
    ∃ extra, ((collect H ap obj tw tps s).2).types = s.types ++ extra ∧
      ∀ p ∈ extra, p.2 = [] := by
  induction tps generalizing s with
  | nil => exact ⟨[], by simp [collect]⟩
  | cons tp rest ih =>
      obtain ⟨e1, he1, he1emp⟩ := ddGet_types s tp
      cases hf : filterMatch H ap obj (ddGet s tp).1 with
      | error e =>
          refine ⟨e1, ?_, he1emp⟩
          simp only [collect, hf]
          exact he1
      | ok filtered =>
          obtain ⟨e2, he2, he2emp⟩ := ih ((ddGet s tp).2)
          refine ⟨e1 ++ e2, ?_, ?_⟩
          · simp only [collect, hf]
            rcases hrs : (collect H ap obj tw rest ((ddGet s tp).2)).1 with
              e | more
            · simpa [he1, List.append_assoc] using he2
            · simpa [he1, List.append_assoc] using he2
          · intro p hp
            rcases List.mem_append.mp hp with h1 | h2
            · exact he1emp p h1
            · exact he2emp p h2

/-- The final state of a `match` call is the state left by the MRO walk. -/
theorem matchST_snd (H : Hierarchy Ty)
    (ap : ω → V → V → Except PyErr Bool) (orOp : W → W → Except PyErr W)
    (s : OptionsState Ty ι ω V W) (obj : PyObj Ty ι V) (tw : Bool) :
    (matchST H ap orOp s obj tw).2 =
      (collect H ap obj tw (H.mro obj.type).reverse s).2 := by
  unfold matchST
  rcases h : (collect H ap obj tw (H.mro obj.type).reverse s).1 with e | c <;>
    simp [h]

/-- The result of the MRO walk depends only on the buckets of the walked
types. -/
theorem collect_congr (H : Hierarchy Ty)
    (ap : ω → V → V → Except PyErr Bool) (obj : PyObj Ty ι V) (tw : Bool)
    (tps : List Ty) (s1 s2 : OptionsState Ty ι ω V W)
    (h : ∀ tp ∈ tps, s1.lookupBucket tp = s2.lookupBucket tp) :
    (collect H ap obj tw tps s1).1 = (collect H ap obj tw tps s2).1 := by
  induction tps generalizing s1 s2 with
  | nil => rfl
  | cons tp rest ih =>
      have hb : (ddGet s1 tp).1 = (ddGet s2 tp).1 := by
        rw [ddGet_fst, ddGet_fst]
        exact h tp (List.mem_cons_self tp rest)
      have hrec := ih ((ddGet s1 tp).2) ((ddGet s2 tp).2)
        (fun tp' htp' => by
          rw [lookupBucket_ddGet, lookupBucket_ddGet]
          exact h tp' (List.mem_cons_of_mem tp htp'))
      simp only [collect, hb]
      cases hf : filterMatch H ap obj (ddGet s2 tp).1 with
      | error e => rfl
      | ok filtered =>
          simp only
          rcases hrs : (collect H ap obj tw rest ((ddGet s2 tp).2)).1 with
            e | more
          · rw [hrec, hrs]
          · rw [hrec, hrs]

/-- The value returned (or exception raised) by `Options.match` depends
only on the buckets stored under the types of the object's MRO. -/
theorem matchOptions_congr (H : Hierarchy Ty)
    (ap : ω → V → V → Except PyErr Bool) (orOp : W → W → Except PyErr W)
    (obj : PyObj Ty ι V) (tw : Bool) (s1 s2 : OptionsState Ty ι ω V W)
    (h : ∀ tp ∈ H.mro obj.type, s1.lookupBucket tp = s2.lookupBucket tp) :
    matchOptions H ap orOp s1 obj tw = matchOptions H ap orOp s2 obj tw := by
  unfold matchOptions matchST
  have hc := collect_congr H ap obj tw (H.mro obj.type).reverse s1 s2
    (fun tp htp => h tp (List.mem_reverse.mp htp))
  simp only [hc]
  rcases hr : (collect H ap obj tw (H.mro obj.type).reverse s2).1 with
    e | c <;> simp

/-- With every consulted condition evaluating cleanly, the MRO walk of
`Options.match` succeeds and gathers exactly `satisfiedOptions`. -/
theorem collect_clean_mro (H : Hierarchy Ty)
    (ap : ω → V → V → Except PyErr Bool) (obj : PyObj Ty ι V)
    (tw : Bool) (s : OptionsState Ty ι ω V W)
    (h : ∀ tp ∈ (H.mro obj.type).reverse, ∀ cw ∈ s.lookupBucket tp,
      Exc.isOkB (Cond.condMatch H ap cw.1 obj) = true) :
    (collect H ap obj tw (H.mro obj.type).reverse s).1 =
      .ok (satisfiedOptions H ap s obj tw) :=
  collect_clean H ap obj tw _ s h

/-- With every consulted condition evaluating cleanly, the result of
`Options.match` is a pure function of the gathered satisfied options:
`NoMatchError` on the empty sequence, otherwise the fold of the values. -/
theorem matchOptions_clean (H : Hierarchy Ty)
    (ap : ω → V → V → Except PyErr Bool)
    (orOp : W → W → Except PyErr W) (s : OptionsState Ty ι ω V W)
    (obj : PyObj Ty ι V) (tw : Bool)
    (h : ∀ tp ∈ (H.mro obj.type).reverse, ∀ cw ∈ s.lookupBucket tp,
      Exc.isOkB (Cond.condMatch H ap cw.1 obj) = true) :
    matchOptions H ap orOp s obj tw =
      foldOptions orOp obj
        (if tw = true then satisfiedOptions H ap s obj tw
         else pySort (pairLT H) (satisfiedOptions H ap s obj tw)) := by
  have hcol := collect_clean_mro H ap obj tw s h
  unfold matchOptions matchST
  simp only [hcol]

end OptionsState


/-!  ## Theorems about the condition ordering -/

section OrderingTheorems

variable {Ty ι ω V : Type} [DecidableEq Ty] [DecidableEq ι]
variable [DecidableEq ω] [DecidableEq V]

/-- C1: cross-kind ordering — for every `IsInstance` condition `D` and every
`Comparison` condition `C` (attribute- or item-based, any bound type,
identifier, operator and reference value), `D < C` evaluates to `True`
(`IsInstance.__lt__` returns `True` for a differently-classed other), and
`C < D` evaluates to `False` (`Comparison.__lt__` returns `NotImplemented`
and the reflected `IsInstance.__gt__` derived by `total_ordering` returns
`False`). -/
theorem c1_cross_kind_ordering (H : Hierarchy Ty) (tpD tpC : Ty)
    (kind : CmpKind) (idc : ι) (op : ω) (ref : V) :
    Cond.pyLT? H (Cond.isInstance tpD)
        (Cond.comparison kind tpC idc op ref) = some true ∧
    Cond.pyLT? H (Cond.comparison kind tpC idc op ref)
        (Cond.isInstance tpD) = some false := by
  exact ⟨rfl, rfl⟩

/-- C6: for `IsInstance` conditions whose bound types are strictly related —
`S` a strict ancestor of `T` (member of `T`'s MRO and different from `T`) —
the ancestor's condition is strictly less and the descendant's condition is
not: `IsInstance(S) < IsInstance(T)` is `True` and
`IsInstance(T) < IsInstance(S)` is `False`. -/
theorem c6_ancestor_ordering (H : Hierarchy Ty) (S T : Ty)
    (hanc : S ∈ H.mro T) (hne : S ≠ T) :
    Cond.pyLT? (ι := ι) (ω := ω) (V := V) H
        (Cond.isInstance S) (Cond.isInstance T)
        = (some true : Option Bool) ∧
    Cond.pyLT? (ι := ι) (ω := ω) (V := V) H
        (Cond.isInstance T) (Cond.isInstance S)
        = (some false : Option Bool) := by
  have hnotmem : T ∉ H.mro S := by
    intro hmem
    exact hne (H.asym S T hanc hmem)
  constructor
  · simp [Cond.pyLT?, Cond.dunderLT, hanc]
  · simp [Cond.pyLT?, Cond.dunderLT, hnotmem]

/-- Witness for `c6_ancestor_ordering`: in the hierarchy `A`, `B(A)`,
`C(B)`, the condition `IsInstance(A)` is strictly below `IsInstance(B)` and
not conversely. -/
theorem c6_ancestor_ordering_witness :
    Cond.pyLT? (ι := String) (ω := COp) (V := Int) CH
        (Cond.isInstance .tA) (Cond.isInstance .tB)
        = (some true : Option Bool) ∧
    Cond.pyLT? (ι := String) (ω := COp) (V := Int) CH
        (Cond.isInstance .tB) (Cond.isInstance .tA)
        = (some false : Option Bool) :=
  c6_ancestor_ordering CH CTy.tA CTy.tB (by decide) (by decide)

/-- C5 counterexample: the `IsInstance` ordering is not irreflexive —
`IsInstance(A) < IsInstance(A)` evaluates to `True`, because
`IsInstance.__lt__` tests `self.type in other.type.mro()` and every class
is a member of its own MRO. -/
theorem c5_counterexample :
    Cond.pyLT? (ι := String) (ω := COp) (V := Int) CH
        (Cond.isInstance .tA) (Cond.isInstance .tA)
        = (some true : Option Bool) := by
  decide

/-- C5 amended: on pairs of `IsInstance` conditions with distinct bound
types the ordering is antisymmetric (never both `A < B` and `B < A`,
related or unrelated), but it is not irreflexive: for every bound type `T`,
`IsInstance(T) < IsInstance(T)` evaluates to `True`. -/
theorem c5_amended_consistency (H : Hierarchy Ty) (S T : Ty) (hne : S ≠ T) :
    ¬(Cond.pyLT? (ι := ι) (ω := ω) (V := V) H
          (Cond.isInstance S) (Cond.isInstance T) = some true ∧
      Cond.pyLT? (ι := ι) (ω := ω) (V := V) H
          (Cond.isInstance T) (Cond.isInstance S) = some true) ∧
    Cond.pyLT? (ι := ι) (ω := ω) (V := V) H
        (Cond.isInstance S) (Cond.isInstance S) = some true := by
  constructor
  · rintro ⟨h1, h2⟩
    simp [Cond.pyLT?, Cond.dunderLT] at h1 h2
    exact hne (H.asym S T h1 h2)
  · simp [Cond.pyLT?, Cond.dunderLT, H.self_mem S]

/-- Witness for `c5_amended_consistency` at the distinct types `A` and
`B`. -/
theorem c5_amended_consistency_witness :
    ¬(Cond.pyLT? (ι := String) (ω := COp) (V := Int) CH
          (Cond.isInstance .tA) (Cond.isInstance .tB) = some true ∧
      Cond.pyLT? (ι := String) (ω := COp) (V := Int) CH
          (Cond.isInstance .tB) (Cond.isInstance .tA) = some true) ∧
    Cond.pyLT? (ι := String) (ω := COp) (V := Int) CH
        (Cond.isInstance .tA) (Cond.isInstance .tA) = some true :=
  c5_amended_consistency CH CTy.tA CTy.tB (by decide)

end OrderingTheorems

/-!  ## Theorems about `Comparison.match` (claim C2) -/


/-- C2 counterexample: `Comparison.match` can raise.  For a `CompareItem`
condition and an object that does not support item access, `obj[id]` raises
`TypeError`, which `except (AttributeError, LookupError)` does not catch, so
`match` propagates the exception instead of returning `False`. -/
theorem c2_match_counterexample :
    Cond.condMatch CH capply
        (Cond.comparison .item .tA "x" .opEq 0) nonSubscriptable
      = .error .typeError := by
  rfl

section MatchSafety

variable {Ty ι ω V : Type} [DecidableEq Ty] [DecidableEq ι]
variable [DecidableEq ω] [DecidableEq V]

/-- C2 amended: for every `Comparison` condition (`CompareAttr` or
`CompareItem`) and every object, `match(obj)` returns the boolean computed
by `operator(retrieved, reference)` when retrieval and operator succeed, and
returns `False` when that evaluation fails with an `AttributeError` or a
`LookupError` (missing attribute, missing key, out-of-range index); a
failure of any other kind — such as the `TypeError` raised when the object
does not support the access at all — propagates out of `match` instead of
being converted to `False`. -/
theorem c2_amended_match_behaviour (H : Hierarchy Ty)
    (ap : ω → V → V → Except PyErr Bool) (kind : CmpKind) (tp : Ty)
    (idc : ι) (op : ω) (ref : V) (obj : PyObj Ty ι V) :
    (∀ b : Bool,
      (Cond.retrieve kind obj idc).bind (fun v => ap op v ref) = .ok b →
      Cond.condMatch H ap (Cond.comparison kind tp idc op ref) obj = .ok b) ∧
    (∀ e : PyErr,
      (Cond.retrieve kind obj idc).bind (fun v => ap op v ref) = .error e →
      Cond.caughtByMatch e = true →
      Cond.condMatch H ap (Cond.comparison kind tp idc op ref) obj
        = .ok false) ∧
    (∀ e : PyErr,
      (Cond.retrieve kind obj idc).bind (fun v => ap op v ref) = .error e →
      Cond.caughtByMatch e = false →
      Cond.condMatch H ap (Cond.comparison kind tp idc op ref) obj
        = .error e) := by
  refine ⟨?_, ?_, ?_⟩
  · intro b hb
    simp [Cond.condMatch, hb]
  · intro e he hc
    simp [Cond.condMatch, he, hc]
  · intro e he hc
    simp [Cond.condMatch, he, hc]

end MatchSafety

/-- Witness for `c2_amended_match_behaviour`: on an object whose attribute
lookup raises `AttributeError`, an attribute comparison's `match` returns
`False`. -/
theorem c2_amended_match_behaviour_witness :
    Cond.condMatch CH capply
        (Cond.comparison .attr .tA "x" .opEq 0) nonSubscriptable
      = .ok false :=
  (c2_amended_match_behaviour CH capply .attr .tA "x" .opEq 0
    nonSubscriptable).2.1 .attributeError rfl rfl

/-!  ## Theorems about `Options.match` and `NoMatchError` (claim C3) -/


/-- C3 counterexample: `Options.match` need not raise `NoMatchError` when
zero stored conditions are satisfied.  With a single `CompareItem` condition
bound to `A` and an object of type `A` that does not support item access,
the condition's `match` raises `TypeError`; `Options.match` propagates that
exception, so zero conditions are satisfied and yet no `NoMatchError` is
raised. -/
theorem c3_nomatch_counterexample :
    OptionsState.matchOptions CH capply wrappedOr itemCondStore
        nonSubscriptable false = .error (.pyErr .typeError) ∧
    OptionsState.anySatisfied CH capply itemCondStore nonSubscriptable
      = false := by
  exact ⟨rfl, rfl⟩

section NoMatchTheorems

variable {Ty ι ω V W : Type} [DecidableEq Ty] [DecidableEq ι]
variable [DecidableEq ω] [DecidableEq V]

/-- C3 amended: provided every condition consulted during the MRO walk
evaluates without raising (`allClean`), `Options.match` raises
`NoMatchError` if and only if zero stored conditions are satisfied for the
object — no condition stored under a type of the object's runtime type's
MRO has `match(obj)` true — and any raised `NoMatchError` carries exactly
the unmatched object.  In particular, when at least one condition is
satisfied, no `NoMatchError` is raised. -/
theorem c3_amended_nomatch_iff (H : Hierarchy Ty)
    (ap : ω → V → V → Except PyErr Bool)
    (orOp : W → W → Except PyErr W) (s : OptionsState Ty ι ω V W)
    (obj : PyObj Ty ι V) (tw : Bool)
    (hclean : OptionsState.allClean H ap s obj = true) :
    ((OptionsState.matchOptions H ap orOp s obj tw
        = .error (.noMatch obj)) ↔
      OptionsState.anySatisfied H ap s obj = false) ∧
    (∀ o, OptionsState.matchOptions H ap orOp s obj tw
        = .error (.noMatch o) → o = obj) := by
  have hcl : ∀ tp ∈ (H.mro obj.type).reverse,
      ∀ cw ∈ s.lookupBucket tp,
        Exc.isOkB (Cond.condMatch H ap cw.1 obj) = true := by
    intro tp htp cw hcw
    rw [List.mem_reverse] at htp
    have h1 := (List.all_eq_true.mp hclean) tp htp
    exact (List.all_eq_true.mp h1) cw hcw
  have hempty :
      OptionsState.satisfiedOptions H ap s obj tw = [] ↔
        OptionsState.anySatisfied H ap s obj = false := by
    unfold OptionsState.satisfiedOptions OptionsState.anySatisfied
    rw [List.flatMap_eq_nil_iff]
    constructor
    · intro h
      by_contra hne
      rw [Bool.not_eq_false, List.any_eq_true] at hne
      obtain ⟨tp, htp, hany⟩ := hne
      rw [List.any_eq_true] at hany
      obtain ⟨cw, hcwmem, hcwtrue⟩ := hany
      have h2 := h tp (List.mem_reverse.mpr htp)
      have hfil : (s.lookupBucket tp).filter
          (fun cw => Exc.okTrue (Cond.condMatch H ap cw.1 obj)) = [] := by
        cases tw with
        | false => simpa [OptionsState.levelOptions] using h2
        | true =>
            rw [OptionsState.levelOptions] at h2
            simpa [pySort_eq_nil_iff] using h2
      exact (List.filter_eq_nil_iff.mp hfil) cw hcwmem hcwtrue
    · intro h tp htp
      rw [List.mem_reverse] at htp
      have hfil : (s.lookupBucket tp).filter
          (fun cw => Exc.okTrue (Cond.condMatch H ap cw.1 obj)) = [] := by
        rw [List.filter_eq_nil_iff]
        intro cw hcw hcwtrue
        have hany : (H.mro obj.type).any (fun tp =>
            (s.lookupBucket tp).any (fun cw =>
              Exc.okTrue (Cond.condMatch H ap cw.1 obj))) = true := by
          rw [List.any_eq_true]
          exact ⟨tp, htp, List.any_eq_true.mpr ⟨cw, hcw, hcwtrue⟩⟩
        rw [h] at hany
        cases hany
      cases tw with
      | false => simpa [OptionsState.levelOptions] using hfil
      | true => simp [OptionsState.levelOptions, hfil, pySort]
  rw [OptionsState.matchOptions_clean H ap orOp s obj tw hcl]
  rcases hopts : (if tw = true then
      OptionsState.satisfiedOptions H ap s obj tw
    else pySort (OptionsState.pairLT H)
      (OptionsState.satisfiedOptions H ap s obj tw)) with _ | ⟨cw, rest⟩
  · have hnil : OptionsState.satisfiedOptions H ap s obj tw = [] := by
      cases tw with
      | false => simpa [pySort_eq_nil_iff] using hopts
      | true => simpa using hopts
    refine ⟨⟨fun _ => hempty.mp hnil, fun _ => rfl⟩, fun o ho => ?_⟩
    simp only [OptionsState.foldOptions] at ho
    injection ho with h1
    injection h1 with h2
    exact h2.symm
  · have hne : ¬ OptionsState.anySatisfied H ap s obj = false := by
      intro hfalse
      have hnil := hempty.mpr hfalse
      rw [hnil] at hopts
      cases tw with
      | false => simp [pySort] at hopts
      | true => simp at hopts
    simp only [OptionsState.foldOptions]
    rcases hred : OptionsState.reduceOr orOp cw.2 (rest.map Prod.snd) with
      v | e
    · exact ⟨⟨(fun h => by cases h), (fun h => absurd h hne)⟩,
        (fun o ho => by cases ho)⟩
    · exact ⟨⟨(fun h => by cases h), (fun h => absurd h hne)⟩,
        (fun o ho => by cases ho)⟩

end NoMatchTheorems

/-!  ## Theorems about `typewise` precedence (claim C4) -/

theorem flatMap_single {α β : Type} [DecidableEq α] (l : List α) (P : α)
    (hP : P ∈ l) (hnd : l.Nodup) (f : α → List β)
    (hf : ∀ x ∈ l, x ≠ P → f x = []) : l.flatMap f = f P := by
  induction l with
  | nil => cases hP
  | cons a l' ih =>
      rw [List.flatMap_cons]
      by_cases ha : a = P
      · subst ha
        have hrest : l'.flatMap f = [] := by
          rw [List.flatMap_eq_nil_iff]
          intro x hx
          have hxne : x ≠ a := by
            intro hxa
            subst hxa
            exact (List.nodup_cons.mp hnd).1 hx
          exact hf x (List.mem_cons_of_mem a hx) hxne
        rw [hrest, List.append_nil]
      · have hfa : f a = [] := hf a (List.mem_cons_self a l') ha
        have hP' : P ∈ l' := by
          rcases List.mem_cons.mp hP with h1 | h2
          · exact absurd h1.symm ha
          · exact h2
        rw [hfa, List.nil_append]
        exact ih hP' (List.nodup_cons.mp hnd).2
          (fun x hx hxne => hf x (List.mem_cons_of_mem a hx) hxne)


section TypewiseTheorems

variable {Ty ι ω V : Type} [DecidableEq Ty] [DecidableEq ι]
variable [DecidableEq ω] [DecidableEq V]

/-- C4: given a spec with a type-based condition bound to a subtype `S`
(value `v1`) and an attribute-based condition bound to a strict supertype
`P` (value `v2`), and an object of type `S` satisfying the attribute
condition, the default mode returns the attribute condition's value (the
global sort puts the `IsInstance` condition first, so `v2` is combined
last), while `typewise=True` returns the subtype's type-based condition's
value (per-level sorting leaves the more specific level last, so `v1` is
combined last). -/
theorem c4_typewise_precedence (H : Hierarchy Ty) (S P : Ty) (idc : ι)
    (op : ω) (ref : V) (v1 v2 : PyVal)
    (ap : ω → V → V → Except PyErr Bool) (obj : PyObj Ty ι V)
    (hobj : obj.type = S) (hmem : P ∈ H.mro S) (hne : P ≠ S)
    (hC : Cond.condMatch H ap (Cond.comparison .attr P idc op ref) obj
      = .ok true) :
    OptionsState.matchOptions H ap wrappedOr (c4store S P idc op ref v1 v2)
        obj false = .ok (.lastSeenWins v2) ∧
    OptionsState.matchOptions H ap wrappedOr (c4store S P idc op ref v1 v2)
        obj true = .ok (.lastSeenWins v1) := by
  obtain ⟨mrest, hmro⟩ := H.self_head S
  have hnodup : (H.mro S).Nodup := H.nodup S
  rw [hmro] at hnodup
  have hSnotin : S ∉ mrest := (List.nodup_cons.mp hnodup).1
  have hrestnd : mrest.Nodup := (List.nodup_cons.mp hnodup).2
  have hPmem : P ∈ mrest := by
    rw [hmro] at hmem
    rcases List.mem_cons.mp hmem with h1 | h2
    · exact absurd h1 hne
    · exact h2
  have hbS : (c4store S P idc op ref v1 v2).lookupBucket S
      = [(.isInstance S, .lastSeenWins v1)] := by
    simp [c4store, OptionsState.lookupBucket]
  have hbP : (c4store S P idc op ref v1 v2).lookupBucket P
      = [(.comparison .attr P idc op ref, .lastSeenWins v2)] := by
    unfold c4store OptionsState.lookupBucket
    rw [List.find?_cons_of_neg _ (by simp [Ne.symm hne]),
      List.find?_cons_of_pos _ (by simp)]
  have hbnone : ∀ tp : Ty, tp ≠ S → tp ≠ P →
      (c4store S P idc op ref v1 v2).lookupBucket tp = [] := by
    intro tp h1 h2
    unfold c4store OptionsState.lookupBucket
    rw [List.find?_cons_of_neg _ (by simp [Ne.symm h1]),
      List.find?_cons_of_neg _ (by simp [Ne.symm h2]), List.find?_nil]
  have hiS : Cond.condMatch (ι := ι) (ω := ω) (V := V) H ap
      (Cond.isInstance S) obj = .ok true := by
    simp [Cond.condMatch, hobj, H.self_mem S]
  have hclean : ∀ tp ∈ (H.mro obj.type).reverse,
      ∀ cw ∈ (c4store S P idc op ref v1 v2).lookupBucket tp,
        Exc.isOkB (Cond.condMatch H ap cw.1 obj) = true := by
    intro tp htp cw hcw
    by_cases h1 : tp = S
    · subst h1
      rw [hbS] at hcw
      simp at hcw
      rw [hcw, hiS]
      rfl
    · by_cases h2 : tp = P
      · subst h2
        rw [hbP] at hcw
        simp at hcw
        rw [hcw, hC]
        rfl
      · rw [hbnone tp h1 h2] at hcw
        cases hcw
  have hlevel : ∀ tw : Bool,
      OptionsState.satisfiedOptions H ap (c4store S P idc op ref v1 v2)
        obj tw =
      [(Cond.comparison .attr P idc op ref, Wrapped.lastSeenWins v2),
       (Cond.isInstance S, Wrapped.lastSeenWins v1)] := by
    intro tw
    unfold OptionsState.satisfiedOptions
    rw [hobj, hmro, List.reverse_cons, List.flatMap_append]
    have hfS : OptionsState.levelOptions H ap
        (c4store S P idc op ref v1 v2) obj tw S =
        [(Cond.isInstance S, Wrapped.lastSeenWins v1)] := by
      unfold OptionsState.levelOptions
      rw [hbS]
      cases tw <;> simp [List.filter_cons, hiS, Exc.okTrue, pySort, pyInsert]
    have hfP : OptionsState.levelOptions H ap
        (c4store S P idc op ref v1 v2) obj tw P =
        [(Cond.comparison .attr P idc op ref, Wrapped.lastSeenWins v2)] := by
      unfold OptionsState.levelOptions
      rw [hbP]
      cases tw <;> simp [List.filter_cons, hC, Exc.okTrue, pySort, pyInsert]
    have hrest : mrest.reverse.flatMap
        (OptionsState.levelOptions H ap (c4store S P idc op ref v1 v2)
          obj tw) =
        [(Cond.comparison .attr P idc op ref, Wrapped.lastSeenWins v2)] := by
      rw [flatMap_single mrest.reverse P (List.mem_reverse.mpr hPmem)
        (List.nodup_reverse.mpr hrestnd) _ ?hzero, hfP]
      case hzero =>
        intro tp htp htpne
        have htpS : tp ≠ S := by
          intro h
          subst h
          exact hSnotin (List.mem_reverse.mp htp)
        unfold OptionsState.levelOptions
        rw [hbnone tp htpS htpne]
        cases tw <;> simp [pySort]
    rw [hrest]
    simp [hfS, List.flatMap_cons]
  constructor
  · rw [OptionsState.matchOptions_clean H ap wrappedOr _ obj false hclean,
      hlevel false]
    simp only [Bool.false_eq_true, if_false]
    rfl
  · rw [OptionsState.matchOptions_clean H ap wrappedOr _ obj true hclean,
      hlevel true]
    rfl

end TypewiseTheorems

/-- Witness for `c4_typewise_precedence`: in the hierarchy `A`, `B(A)` with
the spec `{B: v1 (type-based), match(A).age > 10: v2 (attribute-based)}`
and a `B`-typed object whose `age` is 12, default mode yields `v2` and
typewise mode yields `v1`. -/
theorem c4_typewise_precedence_witness :
    OptionsState.matchOptions CH capply wrappedOr
        (c4store .tB .tA "age" .opGt 10 (.pyStr "sub") (.pyStr "super"))
        ⟨.tB, fun _ => .ok 12, fun _ => .error .lookupError⟩ false
      = .ok (.lastSeenWins (.pyStr "super")) ∧
    OptionsState.matchOptions CH capply wrappedOr
        (c4store .tB .tA "age" .opGt 10 (.pyStr "sub") (.pyStr "super"))
        ⟨.tB, fun _ => .ok 12, fun _ => .error .lookupError⟩ true
      = .ok (.lastSeenWins (.pyStr "sub")) :=
  c4_typewise_precedence CH CTy.tB CTy.tA "age" COp.opGt (10 : Int)
    (.pyStr "sub") (.pyStr "super") capply
    ⟨.tB, fun _ => .ok 12, fun _ => .error .lookupError⟩
    rfl (by decide) (by decide) rfl

/-!  ## Theorems about combination failure (claim C7) -/



/-- C7: when two matched wrapped values cannot be combined — here a
`CopyUpdate`-wrapped dict whose contents cannot be updated with a
`CopyUpdate`-wrapped set containing a number (`dict.update` raises
`TypeError` on the non-pair element) — `CopyUpdate.__or__` signals the
failure with the `NotImplemented` sentinel rather than an exception, and
the failed combination surfaces to the caller of `Options.match` as a
`TypeError` (the interpreter's unsupported-operand error for `|`), not as
some silently coerced value. -/
theorem c7_combination_failure (d : List (String × PyPrim)) (n : Int)
    (xs : List PyPrim) :
    copyUpdateOr (.pyDict d) (.copyUpdate (.pySet (.pInt n :: xs)))
      = .notImpl ∧
    wrappedOr (.copyUpdate (.pyDict d))
        (.copyUpdate (.pySet (.pInt n :: xs))) = .error .typeError ∧
    OptionsState.matchOptions CH capply wrappedOr (c7store d n xs) c7obj
        false = .error (.pyErr .typeError) := by
  exact ⟨rfl, rfl, rfl⟩

/-!  ## Theorems about the wrapper registry (claim C8) -/

/-- C8: idempotence of wrapping — for every value that is already a wrapper
instance, resolving the wrapper registry (as `add_pattern` does at insertion
time) selects the identity constructor registered under `Wrapper`, so
applying it stores the value unchanged: the wrapper is never wrapped a
second time. -/
theorem c8_wrap_idempotent (v : MVal) (h : v.isWrapper = true) :
    addPatternWrap v = .ok v := by
  cases v with
  | mLsw w => rfl
  | mCu w => rfl
  | mInt n => simp [MVal.isWrapper] at h
  | mStr s => simp [MVal.isWrapper] at h
  | mDict d => simp [MVal.isWrapper] at h
  | mSet xs => simp [MVal.isWrapper] at h

/-- Witness for `c8_wrap_idempotent`: an already-wrapped `LastSeenWins`
value is stored unchanged. -/
theorem c8_wrap_idempotent_witness :
    MVal.isWrapper (.mLsw (.mInt 0)) = true ∧
    addPatternWrap (.mLsw (.mInt 0)) = .ok (.mLsw (.mInt 0)) :=
  ⟨rfl, c8_wrap_idempotent (.mLsw (.mInt 0)) rfl⟩

/-!  ## Frame property of `Options.match` (claim C9) -/

section FrameTheorems

variable {Ty ι ω V W : Type} [DecidableEq Ty] [DecidableEq ι]
variable [DecidableEq ω] [DecidableEq V]

/-- C9: `Options.match` never modifies the store's observable contents.
Although reading `self._types[tp]` through the `defaultdict` inserts empty
buckets for missing MRO types, after any `match` call — whether it returns a
combined value or raises — the iteration sequence of conditions, the length,
and the full list of `(condition, value)` entries are unchanged. -/
theorem c9_match_preserves_store (H : Hierarchy Ty)
    (ap : ω → V → V → Except PyErr Bool) (orOp : W → W → Except PyErr W)
    (s : OptionsState Ty ι ω V W) (obj : PyObj Ty ι V) (tw : Bool) :
    ((OptionsState.matchST H ap orOp s obj tw).2).iterConds = s.iterConds ∧
    ((OptionsState.matchST H ap orOp s obj tw).2).lenOptions
      = s.lenOptions ∧
    ((OptionsState.matchST H ap orOp s obj tw).2).entries = s.entries := by
  obtain ⟨extra, hty, hemp⟩ := OptionsState.collect_types H ap obj tw
    ((H.mro obj.type).reverse) s
  rw [OptionsState.matchST_snd]
  refine ⟨?_, ?_, ?_⟩
  · unfold OptionsState.iterConds
    rw [hty, List.map_append, List.flatten_append]
    have hnil : (extra.map (fun p => p.2.map Prod.fst)).flatten = [] := by
      rw [List.flatten_eq_nil_iff]
      intro l hl
      obtain ⟨p, hp, rfl⟩ := List.mem_map.mp hl
      rw [hemp p hp]
      rfl
    rw [hnil, List.append_nil]
  · unfold OptionsState.lenOptions
    rw [hty, List.map_append, List.sum_append]
    have hz : (extra.map (fun p => p.2.length)).sum = 0 := by
      apply List.sum_eq_zero
      intro x hx
      obtain ⟨p, hp, rfl⟩ := List.mem_map.mp hx
      rw [hemp p hp]
      rfl
    rw [hz, Nat.add_zero]
  · unfold OptionsState.entries
    rw [hty, List.map_append, List.flatten_append]
    have hnil : (extra.map Prod.snd).flatten = [] := by
      rw [List.flatten_eq_nil_iff]
      intro l hl
      obtain ⟨p, hp, rfl⟩ := List.mem_map.mp hl
      exact hemp p hp
    rw [hnil, List.append_nil]

end FrameTheorems

/-!  ## Theorems about where the bound type matters (claim C10) -/

section BoundTypeTheorems

variable {Ty ι ω V W : Type} [DecidableEq Ty] [DecidableEq ι]
variable [DecidableEq ω] [DecidableEq V]

/-- C10: a `Comparison` condition's own `match(obj)` never tests the bound
type.  First, the result of `match` is invariant under changing the
object's runtime type (it consults only attribute/item access).  Second,
`Options.match` consults exclusively the buckets stored under the types of
the object's runtime type's MRO, so two stores agreeing there are
indistinguishable.  Third, there is a comparison condition and an object
that is not an instance of the condition's bound type for which `match`
returns `True` (retrieval succeeds and the operator holds). -/
theorem c10_bound_type_only_via_store (H : Hierarchy Ty)
    (ap : ω → V → V → Except PyErr Bool) (orOp : W → W → Except PyErr W) :
    (∀ (kind : CmpKind) (tp : Ty) (idc : ι) (op : ω) (ref : V)
        (obj : PyObj Ty ι V) (t' : Ty),
      Cond.condMatch H ap (Cond.comparison kind tp idc op ref) obj =
        Cond.condMatch H ap (Cond.comparison kind tp idc op ref)
          ⟨t', obj.getattr, obj.getitem⟩) ∧
    (∀ (s1 s2 : OptionsState Ty ι ω V W) (obj : PyObj Ty ι V) (tw : Bool),
      (∀ tp ∈ H.mro obj.type, s1.lookupBucket tp = s2.lookupBucket tp) →
      OptionsState.matchOptions H ap orOp s1 obj tw =
        OptionsState.matchOptions H ap orOp s2 obj tw) ∧
    ((Cond.comparison .attr CTy.tB "x" COp.opEq (5 : Int)).tpOf ∉
        CH.mro CTy.tA ∧
      Cond.condMatch CH capply
        (Cond.comparison .attr CTy.tB "x" COp.opEq (5 : Int))
        ⟨.tA, fun _ => .ok 5, fun _ => .error .typeError⟩ = .ok true) := by
  refine ⟨?_, ?_, ?_, ?_⟩
  · intro kind tp idc op ref obj t'
    cases kind <;> rfl
  · intro s1 s2 obj tw h
    exact OptionsState.matchOptions_congr H ap orOp obj tw s1 s2 h
  · decide
  · rfl

end BoundTypeTheorems

/-- Witness for `c10_bound_type_only_via_store`: a store whose only bucket
is under `B` (outside the MRO of `A`) behaves on an `A`-typed object like
the empty store. -/
theorem c10_bound_type_only_via_store_witness :
    OptionsState.matchOptions CH capply wrappedOr
        (⟨[(.tB, [(.isInstance .tB, Wrapped.lastSeenWins (PyVal.pyInt 7))])]⟩ :
          OptionsState CTy String COp Int (Wrapped PyVal))
        ⟨.tA, fun _ => .ok 5, fun _ => .error .typeError⟩ false =
      OptionsState.matchOptions CH capply wrappedOr
        (⟨[]⟩ : OptionsState CTy String COp Int (Wrapped PyVal))
        ⟨.tA, fun _ => .ok 5, fun _ => .error .typeError⟩ false :=
  (c10_bound_type_only_via_store CH capply wrappedOr).2.1
    ⟨[(.tB, [(.isInstance .tB, Wrapped.lastSeenWins (PyVal.pyInt 7))])]⟩ ⟨[]⟩
    ⟨.tA, fun _ => .ok 5, fun _ => .error .typeError⟩ false (by decide)

/-- Witness for `c3_amended_nomatch_iff`: on an empty store every object
yields `NoMatchError`, and the error carries the object. -/
theorem c3_amended_nomatch_iff_witness :
    OptionsState.matchOptions CH capply wrappedOr
        (⟨[]⟩ : OptionsState CTy String COp Int (Wrapped PyVal))
        nonSubscriptable false
      = .error (.noMatch nonSubscriptable) :=
  (c3_amended_nomatch_iff CH capply wrappedOr ⟨[]⟩ nonSubscriptable false
    (by decide)).1.mpr (by decide)
